import Mathlib

/-!
Shallow embedding of the agent control loops of the repository
`tool-calling-interview-prep`, covering the planner-executor example
(`examples/python-planner-executor/main.py`) and the ReAct example
(`examples/python-react-pattern/main.py`).

Modelling conventions:
* JSON-like tool-input values are the inductive `Value` (Python `str`
  values are `Value.str`; other JSON scalars are represented by the
  remaining constructors — the resolver only ever inspects whether a
  value is a string).
* A tool is a total Lean function returning `Except String Value`;
  `Except.error msg` models the Python function raising an exception
  whose `str(e)` is `msg`.
* Python `dict`s (tool inputs, the execution context, the results map)
  are association lists with an overwrite-or-append update, which
  preserves the insertion order and key uniqueness of a Python dict.
* Wall-clock durations (`duration_ms`) are outside the embedding and
  the corresponding field is omitted.
* The LLM is an opaque collaborator: the planner is an arbitrary
  function from the call index and the previous results to an optional
  plan, and the ReAct reasoning step is an arbitrary function from the
  iteration index to an already-parsed response record.
-/

namespace AgentSpec

/-- JSON-ish value appearing in `tool_input` mappings and tool outputs. -/
inductive Value where
  | str (s : String)
  | num (n : Int)
  | boolV (b : Bool)
  deriving DecidableEq, Repr

/-- Python `dict` keyed by strings: association list, first binding wins. -/
abbrev StrMap := List (String × Value)

/-- `d.get(k)` on a string-keyed dict. -/
def lookupKey (m : StrMap) (k : String) : Option Value :=
  match m with
  | [] => none
  | (k', v) :: rest => if k' = k then some v else lookupKey rest k

/-- `d[k] = v` on a string-keyed dict: overwrite in place or append. -/
def setKey (m : StrMap) (k : String) (v : Value) : StrMap :=
  match m with
  | [] => [(k, v)]
  | (k', v') :: rest =>
      if k' = k then (k', v) :: rest else (k', v') :: setKey rest k v

/-- A registered tool: name to total function (exceptions are `Except.error`). -/
abbrev Tools := List (String × (StrMap → Except String Value))

/-- `name in self.tools` / `self.tools[name]`. -/
def lookupTool (tools : Tools) (name : String) :
    Option (StrMap → Except String Value) :=
  match tools with
  | [] => none
  | (n, f) :: rest => if n = name then some f else lookupTool rest name

/-- `PlanStep` dataclass of `python-planner-executor/main.py`. -/
structure PlanStep where
  step_num : Nat
  description : String
  tool : String
  tool_input : StrMap
  dependencies : List Nat
  deriving DecidableEq, Repr

/-- `ExecutionResult` dataclass (the `duration_ms` field is omitted:
wall-clock time is outside the embedding). -/
structure ExecutionResult where
  step : PlanStep
  success : Bool
  output : Option Value
  error : Option String
  deriving DecidableEq, Repr

/-- The `results: Dict[int, ExecutionResult]` map of `_execute_plan`. -/
abbrev Results := List (Nat × ExecutionResult)

/-- Dictionary lookup in the results map. -/
def lookupResult (results : Results) (k : Nat) : Option ExecutionResult :=
  match results with
  | [] => none
  | (k', r) :: rest => if k' = k then some r else lookupResult rest k

/-- `results[step.step_num] = result`: overwrite in place or append. -/
def setResult (results : Results) (k : Nat) (r : ExecutionResult) : Results :=
  match results with
  | [] => [(k, r)]
  | (k', r') :: rest =>
      if k' = k then (k', r) :: rest else (k', r') :: setResult rest k r

/-- Does `small` occur at the head of `big`? (char-list view of Python
substring/startswith matching). -/
def charsLeadWith : List Char → List Char → Bool
  | [], _ => true
  | _ :: _, [] => false
  | a :: as, b :: bs => a == b && charsLeadWith as bs

/-- Python `s.startswith(pre)`. -/
def strLeads (s pre : String) : Bool := charsLeadWith pre.data s.data

/-- One field of `_resolve_references`: if the value is a string starting
with `"$step"`, treat it as a reference, look up the key obtained by
dropping the leading `$` in the context and substitute when present,
otherwise keep the original marker; any other value passes through. -/
def resolveValue (v : Value) (context : StrMap) : Value :=
  match v with
  | .str s =>
      if strLeads s "$step" then
        match lookupKey context (String.mk (s.data.drop 1)) with
        | some out => out
        | none => .str s
      else .str s
  | other => other

/-- `_resolve_references`: rebuild the input dict field by field. -/
def resolveReferences (tool_input : StrMap) (context : StrMap) : StrMap :=
  match tool_input with
  | [] => []
  | (k, v) :: rest => (k, resolveValue v context) :: resolveReferences rest context

/-- Dependency check of `_execute_plan`:
`all(dep in results for dep in step.dependencies)`. -/
def isReady (results : Results) (step : PlanStep) : Bool :=
  step.dependencies.all (fun dep => (lookupResult results dep).isSome)

/-- Executing one ready step (the body of the `for step in ready_steps`
loop): resolve references, invoke the tool inside `try/except`, and on
success store the output in the context under `step{step_num}`. -/
def execStep (tools : Tools) (context : StrMap) (step : PlanStep) :
    ExecutionResult × StrMap :=
  let resolved := resolveReferences step.tool_input context
  match lookupTool tools step.tool with
  | none =>
      ({ step := step, success := false, output := none,
         error := some ("Tool \x27" ++ step.tool ++ "\x27 not found") }, context)
  | some f =>
      match f resolved with
      | .ok output =>
          ({ step := step, success := true, output := some output,
             error := none },
           setKey context ("step" ++ toString step.step_num) output)
      | .error e =>
          ({ step := step, success := false, output := none,
             error := some e }, context)

/-- Executing a whole ready batch in order, threading context and the
results map. -/
def execBatch (tools : Tools) (batch : List PlanStep) (context : StrMap)
    (results : Results) : Results × StrMap :=
  match batch with
  | [] => (results, context)
  | step :: rest =>
      let rc := execStep tools context step
      execBatch tools rest rc.2 (setResult results step.step_num rc.1)

/-- The `while remaining_steps:` loop of `_execute_plan`. The Python loop
removes at least one step from `remaining_steps` on every pass that does
not `break`, so it runs at most `remaining.length` passes; the `fuel`
argument makes that bound explicit (see `execRounds_fuel_stable`). -/
def execRounds (tools : Tools) (fuel : Nat) (remaining : List PlanStep)
    (context : StrMap) (results : Results) : Results :=
  match fuel with
  | 0 => results
  | fuel' + 1 =>
      if remaining.isEmpty then results
      else
        let ready := remaining.filter (fun s => isReady results s)
        if ready.isEmpty then
          -- "Cannot proceed - unmet dependencies": break out of the loop
          results
        else
          let rc := execBatch tools ready context results
          execRounds tools fuel'
            (remaining.filter (fun s => !isReady results s)) rc.2 rc.1

/-- Insertion into a sorted list of step numbers. -/
def insertSorted (n : Nat) : List Nat → List Nat
  | [] => [n]
  | m :: ms => if n ≤ m then n :: m :: ms else m :: insertSorted n ms

/-- `sorted(results.keys())`. -/
def sortNat (l : List Nat) : List Nat := l.foldr insertSorted []

/-- `[results[i] for i in sorted(results.keys())]`. -/
def reportOf (results : Results) : List ExecutionResult :=
  (sortNat (results.map Prod.fst)).filterMap (lookupResult results)

/-- `_execute_plan`: run the scheduling loop and return the results in
step order. -/
def executePlan (tools : Tools) (plan : List PlanStep) : List ExecutionResult :=
  reportOf (execRounds tools plan.length plan [] [])

/-- Terminal outcome of `PlannerExecutorAgent.run`. The two synthesis
branches delegate prose generation to the LLM, so they are modelled as
tagged outcomes carrying the report they summarize. -/
inductive RunAnswer where
  | planFailed
  | synthesized (results : List ExecutionResult)
  | bestEffort (results : List ExecutionResult)
  | exhausted
  deriving DecidableEq, Repr

/-- Observable outcome of one `run` call: the terminal answer, how many
times `_create_plan` (the planner LLM call) was invoked, and the
`ExecutionReport` of each attempt in order. -/
structure RunResult where
  answer : RunAnswer
  plannerCalls : Nat
  reports : List (List ExecutionResult)
  deriving DecidableEq, Repr

/-- A planner: given the zero-based index of the planning call and the
previous attempt's execution results, produce a plan (the empty list
models `_create_plan` returning `[]`, which `run` treats as failure).
The call index is not a Python argument; it only lets the abstract LLM
answer differently on different calls. -/
abbrev Planner := Nat → List ExecutionResult → List PlanStep

/-- The `while replans_used <= self.max_replans` loop of `run`.
`fuel = max_replans + 1 - replans_used` counts the remaining loop
entries, so the loop guard is `fuel ≥ 1`; after a failed attempt
`replans_used` is incremented and the `replans_used <= max_replans`
recheck is `fuel - 1 ≥ 1`. -/
def runLoop (tools : Tools) (planner : Planner) (fuel : Nat) (calls : Nat)
    (prev : List ExecutionResult) (reports : List (List ExecutionResult)) :
    RunResult :=
  match fuel with
  | 0 => { answer := .exhausted, plannerCalls := calls, reports := reports }
  | fuel' + 1 =>
      let plan := planner calls prev
      if plan.isEmpty then
        { answer := .planFailed, plannerCalls := calls + 1, reports := reports }
      else
        let report := executePlan tools plan
        if (report.filter (fun r => !r.success)).isEmpty then
          { answer := .synthesized report, plannerCalls := calls + 1,
            reports := reports ++ [report] }
        else
          match fuel' with
          | 0 =>
              { answer := .bestEffort report, plannerCalls := calls + 1,
                reports := reports ++ [report] }
          | _ + 1 =>
              runLoop tools planner fuel' (calls + 1) report
                (reports ++ [report])

/-- `PlannerExecutorAgent.run` with budget `max_replans`. -/
def runPE (tools : Tools) (planner : Planner) (maxReplans : Nat) : RunResult :=
  runLoop tools planner (maxReplans + 1) 0 [] []

/-! ## ReAct loop (`python-react-pattern/main.py`) -/

/-- The regex-extracted fields of one LLM response, i.e. the state of
`_parse_response` after lines 163–180: an optional `Action:` capture and
the optionally parsed `Action Input:` JSON object. -/
structure ParsedResponse where
  thought : String
  action : Option String
  action_input : Option StrMap
  deriving DecidableEq, Repr

/-- `AgentStep` dataclass of the ReAct example. -/
structure AgentStep where
  thought : String
  action : Option String
  action_input : StrMap
  observation : Option String
  is_final : Bool
  deriving DecidableEq, Repr

/-- Does `needle` occur anywhere inside the haystack? (`needle in hay`). -/
def charsContain (needle : List Char) : List Char → Bool
  | [] => charsLeadWith needle []
  | c :: cs => charsLeadWith needle (c :: cs) || charsContain needle cs

/-- Python `needle in hay` on strings. -/
def strContainsSub (hay needle : String) : Bool :=
  charsContain needle.data hay.data

/-- Python `str.lower()` (ASCII, which is all the sentinel check needs). -/
def lowerStr (s : String) : String := String.mk (s.data.map Char.toLower)

/-- Lines 183–185 of `_parse_response`:
`if action and "final answer" in action.lower()`. -/
def hasFinalAnswer (action : String) : Bool :=
  action != "" && strContainsSub (lowerStr action) "final answer"

/-- Lines 182–192 of `_parse_response`: build the `AgentStep` from the
extracted fields (`action_input or {}`; `is_final` via the
case-insensitive substring test). -/
def mkStep (p : ParsedResponse) : AgentStep :=
  { thought := p.thought,
    action := p.action,
    action_input :=
      match p.action with
      | some _ => p.action_input.getD []
      | none => [],
    observation := none,
    is_final :=
      match p.action with
      | some a => hasFinalAnswer a
      | none => false }

/-- Python `str(...)` of the tool's return value. -/
def valueStr : Value → String
  | .str s => s
  | .num n => toString n
  | .boolV b => if b then "True" else "False"

/-- Python `str(list_of_names)` as used in the not-found message. -/
def pyListStr (names : List String) : String :=
  "[" ++ String.intercalate ", "
    (names.map (fun n => "\x27" ++ n ++ "\x27")) ++ "]"

/-- Whitespace recognised by Python `str.strip()` (the cases that can
survive the parsing regexes). -/
def isSpaceChar (c : Char) : Bool :=
  c == ' ' || c == '\t' || c == '\n' || c == '\r'

/-- Python `str.strip()`. -/
def pyStrip (s : String) : String :=
  String.mk (((s.data.dropWhile isSpaceChar).reverse.dropWhile
    isSpaceChar).reverse)

/-- `ReactAgent._execute_action`: normalize the name, report a missing
tool as an error observation, run the tool inside `try/except` and
stringify the result. -/
def executeAction (tools : Tools) (action : String) (input : StrMap) : String :=
  let a := pyStrip action
  match lookupTool tools a with
  | none =>
      "Error: Tool \x27" ++ a ++ "\x27 not found. Available tools: " ++
        pyListStr (tools.map Prod.fst)
  | some f =>
      match f input with
      | .ok v => valueStr v
      | .error e => "Error executing " ++ a ++ ": " ++ e

/-- Fixed message returned when `max_iterations` is exhausted. -/
def iterationLimitMsg : String :=
  "Sorry, I reached the maximum number of iterations without completing the task."

/-- The `for iteration in range(self.max_iterations)` loop of
`ReactAgent.run`: `rem` iterations remain, `i` is the current iteration
index fed to the abstract LLM and `hist` is `self.conversation_history`.
Returns the final answer together with the transcript. -/
def reactLoop (tools : Tools) (llm : Nat → ParsedResponse) :
    Nat → Nat → List AgentStep → Value × List AgentStep
  | 0, _, hist => (.str iterationLimitMsg, hist)
  | rem + 1, i, hist =>
      let step := mkStep (llm i)
      if step.is_final then
        ((lookupKey step.action_input "answer").getD (.str ""), hist ++ [step])
      else
        match step.action with
        | some a =>
            if a != "" then
              let obs := executeAction tools a step.action_input
              reactLoop tools llm rem (i + 1)
                (hist ++ [{ step with observation := some obs }])
            else
              reactLoop tools llm rem (i + 1) (hist ++ [step])
        | none => reactLoop tools llm rem (i + 1) (hist ++ [step])

/-- `ReactAgent.run`. -/
def runReact (tools : Tools) (llm : Nat → ParsedResponse)
    (maxIterations : Nat) : Value × List AgentStep :=
  reactLoop tools llm maxIterations 0 []

/-! ## Concrete instances used by the scenario claims -/

/-- A tool that always fails with message `"not found"`. -/
def demoTools : Tools :=
  [("lookup", fun _ => .error "not found"),
   ("echo", fun input => .ok ((lookupKey input "msg").getD (.str "")))]

/-- The single plan step calling the always-failing tool. -/
def lookupStep : PlanStep :=
  { step_num := 1, description := "look it up", tool := "lookup",
    tool_input := [("q", .str "x")], dependencies := [] }

/-- One-step plan whose only step always fails. -/
def lookupPlan : List PlanStep := [lookupStep]

/-- A planner that proposes `lookupPlan` on every call. -/
def constPlanner : Planner := fun _ _ => lookupPlan

/-- The execution result the failing plan produces. -/
def lookupFailResult : ExecutionResult :=
  { step := lookupStep, success := false, output := none,
    error := some "not found" }

/-- Two-step cyclic plan: step 1 depends on 2, step 2 depends on 1. -/
def cyclePlan : List PlanStep :=
  [{ step_num := 1, description := "first", tool := "echo",
     tool_input := [], dependencies := [2] },
   { step_num := 2, description := "second", tool := "echo",
     tool_input := [], dependencies := [1] }]

/-- Step 1 of `depPlan`: names an unregistered tool, so it fails. -/
def missingToolStep : PlanStep :=
  { step_num := 1, description := "will fail", tool := "missing",
    tool_input := [], dependencies := [] }

/-- Step 2 of `depPlan`: depends on the failed step 1 and references its
(absent) output. -/
def afterFailStep : PlanStep :=
  { step_num := 2, description := "after the failure", tool := "echo",
    tool_input := [("msg", .str "$step1")], dependencies := [1] }

/-- Plan whose first step fails and whose second step depends on it. -/
def depPlan : List PlanStep := [missingToolStep, afterFailStep]

/-- The recorded failure of `missingToolStep` (unregistered tool). -/
def missingFailResult : ExecutionResult :=
  { step := missingToolStep, success := false, output := none,
    error := some ("Tool \x27missing\x27 not found") }

/-- The recorded success of `afterFailStep`: its reference to the failed
step stays the unresolved marker and the tool echoes it back. -/
def afterOkResult : ExecutionResult :=
  { step := afterFailStep, success := true,
    output := some (.str "$step1"), error := none }

/-- Mock weather tool of the ReAct scenario. -/
def weatherTools : Tools :=
  [("get_weather", fun _ => .ok (.str "18C cloudy"))]

/-- The two-iteration ReAct scenario transcript. -/
def scenarioLlm : Nat → ParsedResponse := fun i =>
  match i with
  | 0 => { thought := "need weather", action := some "get_weather",
           action_input := some [("location", .str "Paris")] }
  | 1 => { thought := "I now know the final answer",
           action := some "Final Answer",
           action_input :=
             some [("answer", .str "It is 18C and cloudy in Paris.")] }
  | _ => { thought := "idle", action := none, action_input := none }

/-- An LLM whose action is the upper-case variant of the sentinel. -/
def upperFinalLlm : Nat → ParsedResponse := fun _ =>
  { thought := "t", action := some "FINAL ANSWER",
    action_input := some [("answer", .str "done")] }

/-- An LLM producing a final-answer-like action without an answer key. -/
def noAnswerKeyLlm : Nat → ParsedResponse := fun _ =>
  { thought := "t", action := some "Give Final Answer",
    action_input := some [("x", .str "y")] }

/-- An LLM that never acts and never finishes. -/
def silentLlm : Nat → ParsedResponse := fun _ =>
  { thought := "keep thinking", action := none, action_input := none }

/-! ## Dictionary lemmas -/

theorem lookupKey_setKey_self (m : StrMap) (k : String) (v : Value) :
    lookupKey (setKey m k v) k = some v := by
  induction m with
  | nil => simp [setKey, lookupKey]
  | cons kv rest ih =>
      obtain ⟨k', v'⟩ := kv
      by_cases h : k' = k
      · simp [setKey, lookupKey, h]
      · simp [setKey, lookupKey, h, ih]

theorem lookupKey_setKey_other (m : StrMap) (k k' : String) (v : Value)
    (h : k' ≠ k) : lookupKey (setKey m k v) k' = lookupKey m k' := by
  have h' : ¬ k = k' := fun hh => h hh.symm
  induction m with
  | nil => simp [setKey, lookupKey, h']
  | cons kv rest ih =>
      obtain ⟨a, b⟩ := kv
      by_cases ha : a = k
      · subst ha
        simp [setKey, lookupKey, h']
      · simp [setKey, lookupKey, ha, ih]

theorem lookupResult_setResult_self (results : Results) (k : Nat)
    (r : ExecutionResult) : lookupResult (setResult results k r) k = some r := by
  induction results with
  | nil => simp [setResult, lookupResult]
  | cons kv rest ih =>
      obtain ⟨k', r'⟩ := kv
      by_cases h : k' = k
      · simp [setResult, lookupResult, h]
      · simp [setResult, lookupResult, h, ih]

theorem lookupResult_setResult_other (results : Results) (k k' : Nat)
    (r : ExecutionResult) (h : k' ≠ k) :
    lookupResult (setResult results k r) k' = lookupResult results k' := by
  have h' : ¬ k = k' := fun hh => h hh.symm
  induction results with
  | nil => simp [setResult, lookupResult, h']
  | cons kv rest ih =>
      obtain ⟨a, b⟩ := kv
      by_cases ha : a = k
      · subst ha
        simp [setResult, lookupResult, h']
      · simp [setResult, lookupResult, ha, ih]

theorem lookupResult_setResult_isSome (results : Results) (k k' : Nat)
    (r : ExecutionResult) (h : (lookupResult results k).isSome = true) :
    (lookupResult (setResult results k' r) k).isSome = true := by
  by_cases hk : k = k'
  · subst hk; simp [lookupResult_setResult_self]
  · rw [lookupResult_setResult_other _ _ _ _ hk]; exact h

/-! ## Batch-execution lemmas -/

theorem execBatch_preserves_result (tools : Tools) (batch : List PlanStep)
    (ctx : StrMap) (results : Results) (k : Nat)
    (h : (lookupResult results k).isSome = true) :
    (lookupResult (execBatch tools batch ctx results).1 k).isSome = true := by
  induction batch generalizing ctx results with
  | nil => simpa [execBatch] using h
  | cons step rest ih =>
      simp only [execBatch]
      exact ih _ _ (lookupResult_setResult_isSome _ _ _ _ h)

theorem execBatch_records (tools : Tools) (batch : List PlanStep)
    (ctx : StrMap) (results : Results) (step : PlanStep) (h : step ∈ batch) :
    (lookupResult (execBatch tools batch ctx results).1 step.step_num).isSome
      = true := by
  induction batch generalizing ctx results with
  | nil => cases h
  | cons s rest ih =>
      rcases List.mem_cons.mp h with h1 | h2
      · subst h1
        simp only [execBatch]
        exact execBatch_preserves_result _ _ _ _ _
          (by simp [lookupResult_setResult_self])
      · simp only [execBatch]
        exact ih _ _ h2

/-! ## Scheduling-loop lemmas -/

theorem filter_not_length_lt {α : Type} (p : α → Bool) (l : List α)
    (h : l.filter p ≠ []) : (l.filter (fun x => !p x)).length < l.length := by
  induction l with
  | nil => simp at h
  | cons a l ih =>
      by_cases hp : p a
      · have hle := List.length_filter_le (fun x => !p x) l
        simp only [List.filter, hp, Bool.not_true, List.length_cons]
        omega
      · have h' : l.filter p ≠ [] := by
          simpa [List.filter_cons, hp] using h
        have := ih h'
        simp only [List.filter, hp, Bool.not_false, List.length_cons]
        omega

theorem execRounds_deadlock (tools : Tools) (fuel : Nat)
    (remaining : List PlanStep) (ctx : StrMap) (results : Results)
    (h : remaining.filter (fun s => isReady results s) = []) :
    execRounds tools fuel remaining ctx results = results := by
  cases fuel with
  | zero => rfl
  | succ f =>
      by_cases hemp : remaining.isEmpty
      · simp [execRounds, hemp]
      · simp [execRounds, hemp, h]

theorem execRounds_succ (tools : Tools) (fuel : Nat)
    (remaining : List PlanStep) (ctx : StrMap) (results : Results)
    (hemp : remaining.isEmpty = false)
    (hready : (remaining.filter (fun s => isReady results s)).isEmpty = false) :
    execRounds tools (fuel + 1) remaining ctx results =
      execRounds tools fuel (remaining.filter (fun s => !isReady results s))
        (execBatch tools (remaining.filter (fun s => isReady results s))
          ctx results).2
        (execBatch tools (remaining.filter (fun s => isReady results s))
          ctx results).1 := by
  simp [execRounds, hemp, hready]

theorem execRounds_fuel_stable (tools : Tools) (fuel : Nat)
    (remaining : List PlanStep) (ctx : StrMap) (results : Results)
    (h : remaining.length ≤ fuel) :
    execRounds tools (fuel + 1) remaining ctx results =
      execRounds tools fuel remaining ctx results := by
  induction fuel generalizing remaining ctx results with
  | zero =>
      have hr : remaining = [] := List.length_eq_zero.mp (Nat.le_zero.mp h)
      subst hr
      simp [execRounds]
  | succ f ih =>
      cases hemp : remaining.isEmpty with
      | true => simp [execRounds, hemp]
      | false =>
          cases hready : (remaining.filter (fun s => isReady results s)).isEmpty with
          | true =>
              have hnil : remaining.filter (fun s => isReady results s) = [] :=
                List.isEmpty_iff.mp hready
              rw [execRounds_deadlock _ _ _ _ _ hnil,
                execRounds_deadlock _ _ _ _ _ hnil]
          | false =>
              have hne : remaining.filter (fun s => isReady results s) ≠ [] := by
                simpa [List.isEmpty_iff] using hready
              have hlt : (remaining.filter (fun s => !isReady results s)).length
                  < remaining.length :=
                filter_not_length_lt _ _ hne
              have hlen : (remaining.filter
                  (fun s => !isReady results s)).length ≤ f := by
                omega
              rw [execRounds_succ _ _ _ _ _ hemp hready,
                execRounds_succ _ _ _ _ _ hemp hready]
              exact ih _ _ _ hlen

/-! ## Claim theorems -/

/-- C1 (amended): when at some scheduling round no remaining step has all
its dependencies recorded, the execution loop stops at once and returns
the results accumulated so far — it never loops forever (the loop is
insensitive to any fuel beyond `remaining.length` rounds) — but the
deadlocked remaining steps are *absent* from the returned report rather
than appearing with a distinct skipped outcome; for the two-step cycle
the report is empty. -/
theorem c1_deadlock_terminates_steps_absent :
    (∀ (tools : Tools) (fuel : Nat) (remaining : List PlanStep)
        (context : StrMap) (results : Results),
        remaining.filter (fun s => isReady results s) = [] →
        execRounds tools fuel remaining context results = results) ∧
    (∀ (tools : Tools) (fuel : Nat) (remaining : List PlanStep)
        (context : StrMap) (results : Results),
        remaining.length ≤ fuel →
        execRounds tools (fuel + 1) remaining context results =
          execRounds tools fuel remaining context results) ∧
    executePlan demoTools cyclePlan = [] :=
  ⟨execRounds_deadlock, execRounds_fuel_stable, by decide⟩

/-- C1 (counterexample to the claim as stated): for the plan in which
step 1 depends on 2 and step 2 depends on 1, the returned report is
empty — neither deadlocked step appears in it, with or without a
"skipped: unresolved dependency" outcome. -/
theorem c1_cycle_report_empty : executePlan demoTools cyclePlan = [] := by
  decide

/-- C1 witness: instantiating the deadlock clause on the concrete cycle. -/
theorem c1_witness : execRounds demoTools 5 cyclePlan [] [] = [] :=
  c1_deadlock_terminates_steps_absent.1 demoTools 5 cyclePlan [] [] (by decide)

/-- C3: reference resolution is total (a plain function that never
fails), processes every top-level field independently keeping its key, a
reference marker `$step{N}` is substituted by the context entry `step{N}`
when present, is left as the original marker when absent, and every
non-reference value passes through unchanged. -/
theorem c3_reference_resolution_trichotomy :
    (∀ (tool_input : StrMap) (context : StrMap),
        resolveReferences tool_input context =
          tool_input.map (fun kv => (kv.1, resolveValue kv.2 context))) ∧
    (∀ (s : String) (context : StrMap) (out : Value),
        strLeads s "$step" = true →
        lookupKey context (String.mk (s.data.drop 1)) = some out →
        resolveValue (.str s) context = out) ∧
    (∀ (s : String) (context : StrMap),
        strLeads s "$step" = true →
        lookupKey context (String.mk (s.data.drop 1)) = none →
        resolveValue (.str s) context = .str s) ∧
    (∀ (v : Value) (context : StrMap),
        (∀ s, v = .str s → strLeads s "$step" = false) →
        resolveValue v context = v) := by
  refine ⟨?_, ?_, ?_, ?_⟩
  · intro tool_input context
    induction tool_input with
    | nil => rfl
    | cons kv rest ih => simp [resolveReferences, ih]
  · intro s context out h1 h2
    rw [List.drop_one] at h2
    simp [resolveValue, h1, h2]
  · intro s context h1 h2
    rw [List.drop_one] at h2
    simp [resolveValue, h1, h2]
  · intro v context h
    cases v with
    | str s => simp [resolveValue, h s rfl]
    | num n => rfl
    | boolV b => rfl

/-- C3 witness: a present reference is substituted, an absent one keeps
its marker. -/
theorem c3_witness :
    resolveValue (.str "$step1") [("step1", .num 5)] = .num 5 ∧
    resolveValue (.str "$step2") [("step1", .num 5)] = .str "$step2" :=
  ⟨c3_reference_resolution_trichotomy.2.1 "$step1" [("step1", .num 5)]
      (.num 5) (by decide) (by decide),
   c3_reference_resolution_trichotomy.2.2.1 "$step2" [("step1", .num 5)]
      (by decide) (by decide)⟩

/-- C4: a not-yet-executed step is ready exactly when every step id in
its dependencies has a recorded `ExecutionResult`, whatever its success
flag; concretely, a step whose only dependency failed is still executed
and recorded (`depPlan`). -/
theorem c4_ready_iff_deps_recorded :
    (∀ (results : Results) (step : PlanStep),
        isReady results step = true ↔
          ∀ d ∈ step.dependencies, (lookupResult results d).isSome = true) ∧
    executePlan demoTools depPlan = [missingFailResult, afterOkResult] := by
  constructor
  · intro results step
    simp [isReady, List.all_eq_true]
  · decide

/-- C4 witness: with only the failed result of step 1 recorded, the
dependent step 2 is ready. -/
theorem c4_witness : isReady [(1, missingFailResult)] afterFailStep = true :=
  (c4_ready_iff_deps_recorded.1 [(1, missingFailResult)] afterFailStep).mpr
    (by decide)

/-- C5: a step naming an unregistered tool produces a failed
`ExecutionResult` (with the not-found message) and leaves the context
untouched instead of raising; every step of a ready batch is recorded in
the results map, so execution continues past failures; concretely, after
the failed first step of `depPlan` the dependent second step is still
executed and recorded. -/
theorem c5_failures_surfaced_not_raised :
    (∀ (tools : Tools) (context : StrMap) (step : PlanStep),
        lookupTool tools step.tool = none →
        execStep tools context step =
          ({ step := step, success := false, output := none,
             error := some ("Tool \x27" ++ step.tool ++ "\x27 not found") },
           context)) ∧
    (∀ (tools : Tools) (batch : List PlanStep) (context : StrMap)
        (results : Results) (step : PlanStep), step ∈ batch →
        (lookupResult (execBatch tools batch context results).1
          step.step_num).isSome = true) ∧
    executePlan demoTools depPlan = [missingFailResult, afterOkResult] := by
  refine ⟨?_, execBatch_records, by decide⟩
  intro tools context step h
  simp [execStep, h]

/-- C5 witness: the unregistered tool of `missingToolStep` is recorded,
not raised. -/
theorem c5_witness :
    execStep demoTools [] missingToolStep =
      ({ step := missingToolStep, success := false, output := none,
         error := some ("Tool \x27" ++ missingToolStep.tool ++
           "\x27 not found") }, []) ∧
    (lookupResult (execBatch demoTools [missingToolStep] [] []).1
      missingToolStep.step_num).isSome = true :=
  ⟨c5_failures_surfaced_not_raised.1 demoTools [] missingToolStep rfl,
   c5_failures_surfaced_not_raised.2.1 demoTools [missingToolStep] [] []
     missingToolStep (by decide)⟩

/-- C6: executing one step records that step; on success the result
carries the output, the binding `step{id} -> output` is added to the
context and no other key changes; on failure an error message is
recorded and the context is left exactly as it was. -/
theorem c6_step_frame :
    ∀ (tools : Tools) (context : StrMap) (step : PlanStep),
      (execStep tools context step).1.step = step ∧
      ((execStep tools context step).1.success = true →
        ∃ out, (execStep tools context step).1.output = some out ∧
          (execStep tools context step).1.error = none ∧
          (execStep tools context step).2 =
            setKey context ("step" ++ toString step.step_num) out ∧
          lookupKey (execStep tools context step).2
            ("step" ++ toString step.step_num) = some out ∧
          (∀ k, k ≠ "step" ++ toString step.step_num →
            lookupKey (execStep tools context step).2 k =
              lookupKey context k)) ∧
      ((execStep tools context step).1.success = false →
        (∃ e, (execStep tools context step).1.error = some e) ∧
        (execStep tools context step).2 = context) := by
  intro tools context step
  cases hT : lookupTool tools step.tool with
  | none =>
      refine ⟨by simp [execStep, hT], ?_, ?_⟩
      · intro htrue
        simp [execStep, hT] at htrue
      · intro _
        exact ⟨⟨"Tool \x27" ++ step.tool ++ "\x27 not found",
          by simp [execStep, hT]⟩, by simp [execStep, hT]⟩
  | some f =>
      cases hf : f (resolveReferences step.tool_input context) with
      | ok output =>
          refine ⟨by simp [execStep, hT, hf], ?_, ?_⟩
          · intro _
            refine ⟨output, by simp [execStep, hT, hf],
              by simp [execStep, hT, hf], by simp [execStep, hT, hf],
              by simp [execStep, hT, hf, lookupKey_setKey_self], ?_⟩
            intro k hk
            simp only [execStep, hT, hf]
            exact lookupKey_setKey_other _ _ _ _ hk
          · intro hfalse
            simp [execStep, hT, hf] at hfalse
      | error e =>
          refine ⟨by simp [execStep, hT, hf], ?_, ?_⟩
          · intro htrue
            simp [execStep, hT, hf] at htrue
          · intro _
            exact ⟨⟨e, by simp [execStep, hT, hf]⟩,
              by simp [execStep, hT, hf]⟩

/-- C6 witness: the failing step leaves the empty context unchanged and
records an error message. -/
theorem c6_witness :
    (∃ e, (execStep demoTools [] lookupStep).1.error = some e) ∧
    (execStep demoTools [] lookupStep).2 = [] :=
  (c6_step_frame demoTools [] lookupStep).2.2 (by decide)

/-- C9 (amended): the resolver classifies a field purely by the reserved
`$step` prefix on plain string values — a string without the prefix and
every non-string value pass through unchanged, while *any* string value
with the prefix is treated as a step-reference (substituted when the
context has the key, left as the marker otherwise); there is no separate
placeholder type, so a literal string that looks like a reference is
indistinguishable from one. -/
theorem c9_prefix_only_classification :
    (∀ (s : String) (context : StrMap), strLeads s "$step" = false →
        resolveValue (.str s) context = .str s) ∧
    (∀ (s : String) (context : StrMap), strLeads s "$step" = true →
        resolveValue (.str s) context =
          (match lookupKey context (String.mk (s.data.drop 1)) with
           | some out => out
           | none => .str s)) ∧
    (∀ (n : Int) (context : StrMap), resolveValue (.num n) context = .num n) ∧
    (∀ (b : Bool) (context : StrMap),
        resolveValue (.boolV b) context = .boolV b) := by
  refine ⟨?_, ?_, ?_, ?_⟩
  · intro s context h
    simp [resolveValue, h]
  · intro s context h
    simp [resolveValue, h]
  · intro n context
    rfl
  · intro b context
    rfl

/-- C9 (counterexample to the claim as stated): the plain string value
`"$step1"` — a literal string, there being no distinct placeholder
type — is treated as a step-reference: it is substituted when `step1`
is in the context and left as an unresolved marker otherwise. -/
theorem c9_literal_string_substituted :
    resolveValue (.str "$step1") [("step1", .num 5)] = .num 5 ∧
    resolveValue (.str "$step1") [("step1", .num 5)] ≠ .str "$step1" ∧
    resolveValue (.str "$step7") [] = .str "$step7" := by
  decide

/-- C9 witness: a string without the reserved prefix passes through. -/
theorem c9_witness :
    resolveValue (.str "plain text") [("step1", .num 5)] = .str "plain text" :=
  c9_prefix_only_classification.1 "plain text" [("step1", .num 5)] (by decide)

/-! ## ReAct-loop lemmas -/

theorem mkStep_is_final_eq (p : ParsedResponse) (a : String)
    (h : p.action = some a) : (mkStep p).is_final = hasFinalAnswer a := by
  simp [mkStep, h]

theorem hasFinalAnswer_iff (a : String) :
    hasFinalAnswer a = true ↔
      strContainsSub (lowerStr a) "final answer" = true := by
  constructor
  · intro h
    cases hc : strContainsSub (lowerStr a) "final answer" with
    | true => rfl
    | false => simp [hasFinalAnswer, hc] at h
  · intro h
    by_cases he : a = ""
    · rw [he] at h
      exact absurd h (by decide)
    · have hb : (a != "") = true := by simpa using he
      simp [hasFinalAnswer, hb, h]

theorem reactLoop_final_step (tools : Tools) (llm : Nat → ParsedResponse)
    (rem i : Nat) (hist : List AgentStep)
    (h : (mkStep (llm i)).is_final = true) :
    reactLoop tools llm (rem + 1) i hist =
      ((lookupKey (mkStep (llm i)).action_input "answer").getD (.str ""),
       hist ++ [mkStep (llm i)]) := by
  simp [reactLoop, h]

theorem reactLoop_dispatch_step (tools : Tools) (llm : Nat → ParsedResponse)
    (rem i : Nat) (hist : List AgentStep) (a : String)
    (hA : (llm i).action = some a) (hne : a ≠ "")
    (hf : (mkStep (llm i)).is_final = false) :
    reactLoop tools llm (rem + 1) i hist =
      reactLoop tools llm rem (i + 1)
        (hist ++ [{ mkStep (llm i) with
          observation :=
            some (executeAction tools a (mkStep (llm i)).action_input) }]) := by
  have hb : (a != "") = true := by simpa using hne
  have hA' : (mkStep (llm i)).action = some a := hA
  simp [reactLoop, hf, hA', hb]

theorem reactLoop_no_final (tools : Tools) (llm : Nat → ParsedResponse)
    (hnf : ∀ j, (mkStep (llm j)).is_final = false) :
    ∀ (rem i : Nat) (hist : List AgentStep),
      (reactLoop tools llm rem i hist).1 = .str iterationLimitMsg ∧
      (reactLoop tools llm rem i hist).2.length = hist.length + rem := by
  intro rem
  induction rem with
  | zero =>
      intro i hist
      simp [reactLoop]
  | succ r ih =>
      intro i hist
      cases hA : (llm i).action with
      | none =>
          have hA' : (mkStep (llm i)).action = none := hA
          have h := ih (i + 1) (hist ++ [mkStep (llm i)])
          simp only [reactLoop, hnf i, hA', Bool.false_eq_true, if_false]
          constructor
          · exact h.1
          · rw [h.2]
            simp
            omega
      | some a =>
          by_cases he : a = ""
          · have hA' : (mkStep (llm i)).action = some a := hA
            have hb : (a != "") = false := by simp [he]
            have h := ih (i + 1) (hist ++ [mkStep (llm i)])
            simp only [reactLoop, hnf i, hA', hb, Bool.false_eq_true, if_false]
            constructor
            · exact h.1
            · rw [h.2]
              simp
              omega
          · have hd := reactLoop_dispatch_step tools llm r i hist a hA he (hnf i)
            rw [hd]
            have h := ih (i + 1) (hist ++ [{ mkStep (llm i) with
              observation :=
                some (executeAction tools a (mkStep (llm i)).action_input) }])
            constructor
            · exact h.1
            · rw [h.2]
              simp
              omega

/-! ## Planner-executor session lemmas -/

theorem lookupReport_eq : executePlan demoTools lookupPlan = [lookupFailResult] := by
  decide

theorem lookupPlan_nonempty : lookupPlan.isEmpty = false := by decide

theorem lookupReport_failing :
    (([lookupFailResult]).filter (fun r => !r.success)).isEmpty = false := by
  decide

theorem runLoop_fail_base (calls : Nat) (prev : List ExecutionResult)
    (acc : List (List ExecutionResult)) :
    runLoop demoTools constPlanner 1 calls prev acc =
      { answer := .bestEffort [lookupFailResult], plannerCalls := calls + 1,
        reports := acc ++ [[lookupFailResult]] } := by
  simp [runLoop, constPlanner, lookupReport_eq, lookupPlan_nonempty,
    lookupReport_failing]

theorem runLoop_fail_step (fuel calls : Nat) (prev : List ExecutionResult)
    (acc : List (List ExecutionResult)) :
    runLoop demoTools constPlanner (fuel + 2) calls prev acc =
      runLoop demoTools constPlanner (fuel + 1) (calls + 1) [lookupFailResult]
        (acc ++ [[lookupFailResult]]) := by
  simp [runLoop, constPlanner, lookupReport_eq, lookupPlan_nonempty,
    lookupReport_failing]

theorem runLoop_all_fail (fuel : Nat) :
    ∀ (calls : Nat) (prev : List ExecutionResult)
      (acc : List (List ExecutionResult)),
      runLoop demoTools constPlanner (fuel + 1) calls prev acc =
        { answer := .bestEffort [lookupFailResult],
          plannerCalls := calls + (fuel + 1),
          reports := acc ++ List.replicate (fuel + 1) [lookupFailResult] } := by
  induction fuel with
  | zero =>
      intro calls prev acc
      rw [runLoop_fail_base]
      simp
  | succ f ih =>
      intro calls prev acc
      rw [runLoop_fail_step, ih]
      have hn : calls + 1 + (f + 1) = calls + (f + 1 + 1) := by omega
      have hr : acc ++ [[lookupFailResult]] ++
          List.replicate (f + 1) [lookupFailResult] =
          acc ++ List.replicate (f + 1 + 1) [lookupFailResult] := by
        rw [List.append_assoc]
        simp [List.replicate_succ]
      rw [hn, hr]

/-- C2 (amended): with the code's budget parameter `max_replans = m` and
the one-step plan whose tool always fails with "not found", `run` calls
the planner `m + 1` times in total (initial attempt plus `m` replans)
and then returns the partial-failure answer; the execution report of
every attempt is the single failed result carrying "not found". The
claim's "Planner called twice total" behaviour is `max_replans = 1`
(a total attempt budget of 2), not `max_replans = 2`. -/
theorem c2_planner_calls_budget_plus_one :
    (∀ maxReplans : Nat,
        runPE demoTools constPlanner maxReplans =
          { answer := .bestEffort [lookupFailResult],
            plannerCalls := maxReplans + 1,
            reports := List.replicate (maxReplans + 1) [lookupFailResult] }) ∧
    (runPE demoTools constPlanner 1).plannerCalls = 2 ∧
    (runPE demoTools constPlanner 1).reports =
      [[lookupFailResult], [lookupFailResult]] := by
  refine ⟨?_, by decide, by decide⟩
  intro m
  have h := runLoop_all_fail m 0 [] []
  simpa [runPE] using h

/-- C2 (counterexample to the claim as stated): configuring the code's
replan budget to 2 makes `run` call the planner three times, not twice,
before the partial-failure answer. -/
theorem c2_budget_two_calls_planner_thrice :
    (runPE demoTools constPlanner 2).plannerCalls = 3 ∧
    (runPE demoTools constPlanner 2).plannerCalls ≠ 2 ∧
    (runPE demoTools constPlanner 2).answer =
      .bestEffort [lookupFailResult] := by
  decide

/-- C7 (amended): a parsed step whose action is exactly the sentinel
"Final Answer" terminates the loop at once, returning the `answer` field
of its input (the step is appended without observation); an action that
is non-empty and does *not* contain "final answer" case-insensitively is
dispatched through the registry, its stringified result becoming the
appended step's observation; in the concrete scenario the loop returns
"It is 18C and cloudy in Paris." after exactly 2 iterations. (An action
merely *containing* "final answer" in any case is also terminal — see
the counterexample — which is why "any other action name is dispatched"
needed amending.) -/
theorem c7_sentinel_and_dispatch :
    (∀ (tools : Tools) (llm : Nat → ParsedResponse) (rem i : Nat)
        (hist : List AgentStep),
        (llm i).action = some "Final Answer" →
        reactLoop tools llm (rem + 1) i hist =
          ((lookupKey (mkStep (llm i)).action_input "answer").getD (.str ""),
           hist ++ [mkStep (llm i)])) ∧
    (∀ (tools : Tools) (llm : Nat → ParsedResponse) (rem i : Nat)
        (hist : List AgentStep) (a : String),
        (llm i).action = some a → a ≠ "" →
        strContainsSub (lowerStr a) "final answer" = false →
        reactLoop tools llm (rem + 1) i hist =
          reactLoop tools llm rem (i + 1)
            (hist ++ [{ mkStep (llm i) with
              observation :=
                some (executeAction tools a
                  (mkStep (llm i)).action_input) }])) ∧
    runReact weatherTools scenarioLlm 10 =
      (.str "It is 18C and cloudy in Paris.",
       [{ thought := "need weather", action := some "get_weather",
          action_input := [("location", .str "Paris")],
          observation := some "18C cloudy", is_final := false },
        { thought := "I now know the final answer",
          action := some "Final Answer",
          action_input := [("answer", .str "It is 18C and cloudy in Paris.")],
          observation := none, is_final := true }]) := by
  refine ⟨?_, ?_, by decide⟩
  · intro tools llm rem i hist h
    have hf : (mkStep (llm i)).is_final = true := by
      rw [mkStep_is_final_eq (llm i) _ h]
      decide
    exact reactLoop_final_step tools llm rem i hist hf
  · intro tools llm rem i hist a hA hne hno
    have hf : (mkStep (llm i)).is_final = false := by
      rw [mkStep_is_final_eq (llm i) a hA]
      simp [hasFinalAnswer, hno]
    exact reactLoop_dispatch_step tools llm rem i hist a hA hne hf

/-- C7 (counterexample to the claim as stated): the action
"FINAL ANSWER" is not the exact sentinel "Final Answer", yet the loop
terminates on it immediately and returns its answer field — the step is
never dispatched (its observation stays `none`). -/
theorem c7_uppercase_final_not_dispatched :
    (runReact [] upperFinalLlm 5).1 = .str "done" ∧
    (runReact [] upperFinalLlm 5).2 =
      [{ thought := "t", action := some "FINAL ANSWER",
         action_input := [("answer", .str "done")], observation := none,
         is_final := true }] ∧
    some "FINAL ANSWER" ≠ some "Final Answer" := by
  decide

/-- C7 witness: the sentinel clause and the dispatch clause instantiated
on the concrete scenario. -/
theorem c7_witness :
    reactLoop weatherTools scenarioLlm (8 + 1) 1 [] =
      ((lookupKey (mkStep (scenarioLlm 1)).action_input "answer").getD
        (.str ""), [] ++ [mkStep (scenarioLlm 1)]) ∧
    reactLoop weatherTools scenarioLlm (9 + 1) 0 [] =
      reactLoop weatherTools scenarioLlm 9 (0 + 1)
        ([] ++ [{ mkStep (scenarioLlm 0) with
          observation :=
            some (executeAction weatherTools "get_weather"
              (mkStep (scenarioLlm 0)).action_input) }]) :=
  ⟨c7_sentinel_and_dispatch.1 weatherTools scenarioLlm 8 1 [] (by decide),
   c7_sentinel_and_dispatch.2.1 weatherTools scenarioLlm 9 0 [] "get_weather"
     (by decide) (by decide) (by decide)⟩

/-- C8: for every iteration budget (including 0) and every response
sequence in which no parsed step is final, the loop runs exactly
`max_iterations` iterations (the transcript has that length, so at most
`max_iterations` iterations happen) and returns the fixed
iteration-limit message; being a total function, it raises nothing. -/
theorem c8_iteration_limit :
    ∀ (tools : Tools) (llm : Nat → ParsedResponse) (maxIterations : Nat),
      (∀ j, (mkStep (llm j)).is_final = false) →
      (runReact tools llm maxIterations).1 = .str iterationLimitMsg ∧
      (runReact tools llm maxIterations).2.length = maxIterations := by
  intro tools llm maxIterations hnf
  have h := reactLoop_no_final tools llm hnf maxIterations 0 []
  simpa [runReact] using h

/-- C8 witness: the never-final LLM with budgets 3 and 0. -/
theorem c8_witness :
    ((runReact weatherTools silentLlm 3).1 = .str iterationLimitMsg ∧
      (runReact weatherTools silentLlm 3).2.length = 3) ∧
    ((runReact weatherTools silentLlm 0).1 = .str iterationLimitMsg ∧
      (runReact weatherTools silentLlm 0).2.length = 0) :=
  ⟨c8_iteration_limit weatherTools silentLlm 3 (fun _ => rfl),
   c8_iteration_limit weatherTools silentLlm 0 (fun _ => rfl)⟩

/-- C10: final-answer detection is a case-insensitive substring test —
a parsed step is final exactly when its action contains "final answer"
in any letter case (the emptiness guard is redundant since containment
forces a non-empty action); and a final step whose input lacks an
"answer" key makes the loop return the empty string. -/
theorem c10_substring_final_detection :
    (∀ a : String, hasFinalAnswer a = true ↔
        strContainsSub (lowerStr a) "final answer" = true) ∧
    (∀ (p : ParsedResponse) (a : String), p.action = some a →
        (mkStep p).is_final = hasFinalAnswer a) ∧
    (∀ (tools : Tools) (llm : Nat → ParsedResponse) (rem i : Nat)
        (hist : List AgentStep),
        (mkStep (llm i)).is_final = true →
        lookupKey (mkStep (llm i)).action_input "answer" = none →
        reactLoop tools llm (rem + 1) i hist =
          (.str "", hist ++ [mkStep (llm i)])) ∧
    (runReact weatherTools noAnswerKeyLlm 5).1 = .str "" ∧
    (runReact weatherTools upperFinalLlm 5).1 = .str "done" := by
  refine ⟨hasFinalAnswer_iff, mkStep_is_final_eq, ?_, by decide, by decide⟩
  intro tools llm rem i hist h1 h2
  rw [reactLoop_final_step tools llm rem i hist h1, h2]
  rfl

/-- C10 witness: the mixed-case action "Give Final Answer" with no
answer key terminates the loop with the empty string. -/
theorem c10_witness :
    reactLoop weatherTools noAnswerKeyLlm (3 + 1) 0 [] =
      (.str "", [] ++ [mkStep (noAnswerKeyLlm 0)]) :=
  c10_substring_final_detection.2.2.1 weatherTools noAnswerKeyLlm 3 0 []
    (by decide) (by decide)

end AgentSpec
